import Mathlib

/-!
Verification development for the JobAppsMailTracker repository.

This file shallowly embeds the core of `job_tracker.py` (class `JobTracker`)
in Lean 4: the identity generator (`generate_job_id`,
`extract_position_keywords`), the field extractor (`extract_company`), the
status classifier (`determine_status`), the ledger lookup
(`find_existing_job`), the status-update mutation
(`update_existing_job_status`), the batch reconciliation
(`process_job_applications_with_updates`) and the append path of
`update_spreadsheet`.

Python strings are modelled as Lean `String` (lists of characters); the
case-mapping and whitespace predicates match Python on the ASCII range,
which covers every literal occurring in the program.  Stateful spreadsheet
code is modelled by explicit state passing: the worksheet's data rows
(everything below the header row) are a `List Row`, and the two collaborator
failure modes that the Python code catches as exceptions are made explicit
as boolean parameters (`lookupOk` for `find_existing_job`'s try/except,
`writeOk` for the cell writes in `update_existing_job_status`).  Code that
can raise an uncaught exception (`extract_company`) returns an `Option`,
with `none` marking the raise.
-/

/-! ### Generic string helpers (Python string primitives on `List Char`) -/

/-- Python `sep in s` / prefix test helper: is `pre` a prefix of `l`? -/
def isPrefixList : List Char → List Char → Bool
  | [], _ => true
  | _ :: _, [] => false
  | a :: as, b :: bs => a == b && isPrefixList as bs

/-- Split `l` at the first occurrence of `sep`, returning the part before
the occurrence and the part after it; `none` when `sep` does not occur. -/
def breakOnInfix (sep : List Char) : List Char → Option (List Char × List Char)
  | [] => if isPrefixList sep [] then some ([], []) else none
  | c :: rest =>
    if isPrefixList sep (c :: rest) then some ([], List.drop sep.length (c :: rest))
    else
      match breakOnInfix sep rest with
      | some p => some (c :: p.1, p.2)
      | none => none

/-- Python `sub in hay` (substring containment). -/
def containsSub (hay sub : List Char) : Bool := (breakOnInfix sub hay).isSome

/-- The part of `l` strictly before the first occurrence of `sep`
(all of `l` when `sep` does not occur): one component of Python `split`. -/
def beforeInfix (sep l : List Char) : List Char :=
  match breakOnInfix sep l with
  | some p => p.1
  | none => l

/-- Python `s.split()` (split on whitespace runs, dropping empty tokens). -/
def wsTokensAux : List Char → List Char → List (List Char)
  | acc, [] => if acc = [] then [] else [acc.reverse]
  | acc, c :: rest =>
    if c.isWhitespace then
      if acc = [] then wsTokensAux [] rest else acc.reverse :: wsTokensAux [] rest
    else wsTokensAux (c :: acc) rest

/-- Python `s.split()` on a character list. -/
def wsTokens (l : List Char) : List (List Char) := wsTokensAux [] l

/-- Python `s.split(sep)` for a single-character separator. -/
def splitOnChar (sep : Char) : List Char → List (List Char)
  | [] => [[]]
  | c :: rest =>
    if c = sep then [] :: splitOnChar sep rest
    else
      match splitOnChar sep rest with
      | t :: ts => (c :: t) :: ts
      | [] => [[c]]

/-- Python `s.strip()` (drop whitespace at both ends). -/
def trimChars (l : List Char) : List Char :=
  ((l.dropWhile Char.isWhitespace).reverse.dropWhile Char.isWhitespace).reverse

/-- Python `s.lower()` (ASCII case mapping). -/
def strLower (s : String) : String := String.mk (s.toList.map Char.toLower)

/-- Python `s.upper()` (ASCII case mapping). -/
def strUpper (s : String) : String := String.mk (s.toList.map Char.toUpper)

/-- Python `s.strip()`. -/
def strTrim (s : String) : String := String.mk (trimChars s.toList)

/-- Python `s.title()` worker: a letter is uppercased when the previous
character is not a letter, lowercased otherwise. -/
def titleAux : Bool → List Char → List Char
  | _, [] => []
  | prevAlpha, c :: rest =>
    if c.isAlpha then
      (if prevAlpha then c.toLower else c.toUpper) :: titleAux true rest
    else c :: titleAux false rest

/-- Python `s.title()` (ASCII). -/
def pyTitle (s : String) : String := String.mk (titleAux false s.toList)

/-! ### The digest suffix -/

/-- One lowercase hexadecimal digit. -/
def hexDigit (n : Nat) : Char :=
  if n < 10 then Char.ofNat (48 + n) else Char.ofNat (87 + n)

/-- Render the low 32 bits of `n` as 8 lowercase hexadecimal characters. -/
def hex8 (n : Nat) : String :=
  String.mk ((List.range 8).map fun i => hexDigit ((n >>> ((7 - i) * 4)) % 16))

/-- Models `hashlib.md5(normalized.encode()).hexdigest()[:8]` from
`generate_job_id`.  The digest is modelled as a fixed pure computable
function of the input string (an FNV-style fold over the UTF-8 bytes,
rendered as 8 hex characters) rather than bit-exact MD5: every theorem in
this file depends only on the digest being a deterministic function of the
hashed string, never on its concrete values. -/
def md5hex8 (s : String) : String :=
  hex8 (s.toUTF8.toList.foldl (fun a b => ((a ^^^ b.toNat) * 16777619) % 4294967296) 2166136261)

/-! ### Identity generator (`generate_job_id`, `extract_position_keywords`) -/

/-- The keyword vocabulary of `extract_position_keywords`
(job_tracker.py lines 339-346), in source order. -/
def role_keywords : List String :=
  ["backend", "frontend", "fullstack", "full-stack", "full stack",
   "machine learning", "ml", "ai", "data", "infrastructure",
   "mobile", "ios", "android", "web", "cloud", "devops",
   "security", "embedded", "systems", "platform", "api",
   "senior", "junior", "lead", "principal", "staff",
   "remote", "onsite", "hybrid", "contract", "intern"]

/-- `JobTracker.extract_position_keywords` (job_tracker.py lines 331-354):
collect the vocabulary keywords occurring in the lower-cased subject, in
vocabulary order, and join the first two with an underscore. -/
def extract_position_keywords (email_subject : String) : String :=
  if email_subject = "" then ""
  else
    let subject_lower := (strLower email_subject).toList
    let found := role_keywords.filter fun kw => containsSub subject_lower kw.toList
    if found = [] then "" else String.intercalate "_" (found.take 2)

/-- The date-only component used by `generate_job_id`:
`application_date.split('T')[0]`. -/
def datePart (d : String) : String :=
  String.mk (List.getD (splitOnChar 'T' d.toList) 0 [])

/-- `re.sub(r'[^a-zA-Z0-9]', '', s)[:n]` from `generate_job_id`. -/
def sanitizeAlnum (s : String) (n : Nat) : String :=
  String.mk ((s.toList.filter fun c => c.isAlpha || c.isDigit).take n)

/-- `JobTracker.generate_job_id` (job_tracker.py lines 292-329). -/
def generate_job_id (company position email_subject application_date : String) : String :=
  let subject_keywords := extract_position_keywords email_subject
  let base_normalized := strTrim (strLower company) ++ "|" ++ strTrim (strLower position)
  let normalized1 :=
    if subject_keywords = "" then base_normalized
    else base_normalized ++ "|" ++ subject_keywords
  let normalized2 :=
    if application_date = "" then normalized1
    else normalized1 ++ "|" ++ datePart application_date
  let job_hash := md5hex8 normalized2
  let clean_company := sanitizeAlnum company 10
  let clean_position := sanitizeAlnum position 15
  if subject_keywords = "" then
    clean_company ++ "_" ++ clean_position ++ "_" ++ job_hash
  else
    clean_company ++ "_" ++ clean_position ++ "_" ++ sanitizeAlnum subject_keywords 10 ++ "_" ++ job_hash

/-! ### Status classifier (`determine_status`) -/

/-- The ordered keyword table of `determine_status`
(job_tracker.py lines 515-520); Python dicts preserve insertion order. -/
def status_keywords : List (String × List String) :=
  [("rejected", ["rejected", "not selected", "unfortunately", "regret"]),
   ("interview", ["interview", "schedule", "meeting", "call"]),
   ("accepted", ["accepted", "congratulations", "welcome", "offer"]),
   ("withdrawn", ["withdrawn", "cancelled", "no longer interested"])]

/-- The default `status_mapping` from `load_config` (job_tracker.py lines 78-84). -/
def default_status_mapping : List (String × String) :=
  [("applied", "Applied"), ("interview", "Interview"), ("rejected", "Rejected"),
   ("accepted", "Accepted"), ("withdrawn", "Withdrawn")]

/-- `self.config['status_mapping'].get(status, status.title())` under the
default configuration. -/
def mappingGet (k : String) : String :=
  match default_status_mapping.lookup k with
  | some v => v
  | none => pyTitle k

/-- The scan of `determine_status` over the keyword table: first entry with
any keyword contained in the text wins; default `Applied`. -/
def statusScan (text : List Char) : List (String × List String) → String
  | [] => "Applied"
  | (st, kws) :: rest =>
    if kws.any (fun kw => containsSub text kw.toList) then mappingGet st
    else statusScan text rest

/-- `JobTracker.determine_status` (job_tracker.py lines 511-526), with the
default status mapping. -/
def determine_status (subject body : String) : String :=
  statusScan ((strLower (subject ++ " " ++ body)).toList) status_keywords

/-- The classifier table as the spec states it: the four status labels in
fixed order `Rejected > Interview > Accepted > Withdrawn`, each with its
keyword set. -/
def claimStatusTable : List (String × List String) :=
  [("Rejected", ["rejected", "not selected", "unfortunately", "regret"]),
   ("Interview", ["interview", "schedule", "meeting", "call"]),
   ("Accepted", ["accepted", "congratulations", "welcome", "offer"]),
   ("Withdrawn", ["withdrawn", "cancelled", "no longer interested"])]

/-- The table scan as the spec states it, returning the entry's status label. -/
def tableScan (text : List Char) : List (String × List String) → String
  | [] => "Applied"
  | (st, kws) :: rest =>
    if kws.any (fun kw => containsSub text kw.toList) then st
    else tableScan text rest

/-- The status classifier as the spec's words describe it: the status of the
first table entry having any keyword present as a substring of the
lower-cased text, with default `Applied`. -/
def classifySpec (text : String) : String :=
  tableScan ((strLower text).toList) claimStatusTable

/-! ### Field extractor (`extract_company`) -/

/-- The generic-provider denylist of `extract_company`
(job_tracker.py line 472).  Note: `aol` is absent. -/
def generic_domains : List String := ["gmail", "yahoo", "hotmail", "outlook"]

/-- The subject markers of `extract_company` (job_tracker.py line 478).
Note: there is no `"FROM "` marker. -/
def common_indicators : List String := ["AT ", "FOR ", "WITH ", "VIA "]

/-- `from_email.split('@')[1].split('.')[0]` (job_tracker.py line 471). -/
def domainOf (from_email : String) : String :=
  String.mk (List.getD (splitOnChar '.' (List.getD (splitOnChar '@' from_email.toList) 1 [])) 0 [])

/-- `subject_upper.split(indicator)[1].split()[0]` (job_tracker.py line 483):
the first whitespace token of the chunk between the first occurrence of
`sep` and the following occurrence (or the end).  `none` models the Python
`IndexError` raised when that chunk has no token. -/
def tokenAfterFirst (sep l : List Char) : Option (List Char) :=
  match breakOnInfix sep l with
  | none => none
  | some p => (wsTokens (beforeInfix sep p.2)).head?

/-- The indicator loop of `extract_company` (job_tracker.py lines 479-484):
scan the indicators in list order; for the first one contained in the
upper-cased subject return its following token (inner `none` models the
`IndexError`); outer `none` means no indicator is present. -/
def firstIndicatorToken : List String → List Char → Option (Option (List Char))
  | [], _ => none
  | ind :: rest, su =>
    if containsSub su ind.toList then some (tokenAfterFirst ind.toList su)
    else firstIndicatorToken rest su

/-- `JobTracker.extract_company` (job_tracker.py lines 467-486).
`none` models an uncaught `IndexError`; `some s` is a normal return. -/
def extract_company (from_email subject : String) : Option String :=
  let domainResult : Option String :=
    if containsSub from_email.toList ['@'] then
      let domain := domainOf from_email
      if generic_domains.contains domain then none else some (pyTitle domain)
    else none
  match domainResult with
  | some c => some c
  | none =>
    if subject = "" then some "Unknown Company"
    else
      match firstIndicatorToken common_indicators (strUpper subject).toList with
      | none => some "Unknown Company"
      | some none => none
      | some (some tok) => some (pyTitle (String.mk tok))

/-- Company extraction as the amended claim describes it (a total
function): title-cased domain segment of the sender address unless the
domain is a generic provider (gmail, yahoo, hotmail, outlook); otherwise
the title-cased token following the first marker of
`AT / FOR / WITH / VIA` present in the upper-cased subject; otherwise the
sentinel. -/
def extractCompanySpec (from_email subject : String) : String :=
  let domainResult : Option String :=
    if containsSub from_email.toList ['@'] then
      let domain := domainOf from_email
      if generic_domains.contains domain then none else some (pyTitle domain)
    else none
  match domainResult with
  | some c => c
  | none =>
    if subject = "" then "Unknown Company"
    else
      match firstIndicatorToken common_indicators (strUpper subject).toList with
      | some (some tok) => pyTitle (String.mk tok)
      | _ => "Unknown Company"

/-- Company extraction exactly as the original claim states it: the
denylist additionally holds `aol`, and the marker list additionally holds
`"FROM "`. -/
def extractCompanyClaimed (from_email subject : String) : String :=
  let domainResult : Option String :=
    if containsSub from_email.toList ['@'] then
      let domain := domainOf from_email
      if ["gmail", "yahoo", "hotmail", "outlook", "aol"].contains domain then none
      else some (pyTitle domain)
    else none
  match domainResult with
  | some c => c
  | none =>
    if subject = "" then "Unknown Company"
    else
      match firstIndicatorToken ["AT ", "FOR ", "WITH ", "VIA ", "FROM "] (strUpper subject).toList with
      | some (some tok) => pyTitle (String.mk tok)
      | _ => "Unknown Company"

/-! ### The ledger model -/

/-- One data row of the tracking worksheet, fields in the header order set
up by `create_or_get_spreadsheet` (job_tracker.py lines 210-213):
Job ID, Company, Position, Application Date, Status, Email ID, Email Date,
Source, Notes, Last Updated (worksheet columns A through J). -/
structure Row where
  jobId : String
  company : String
  position : String
  applicationDate : String
  status : String
  emailId : String
  emailDate : String
  source : String
  notes : String
  lastUpdated : String
deriving DecidableEq

/-- The `JobApplication` dataclass (job_tracker.py lines 49-61). -/
structure JobApplication where
  company : String
  position : String
  application_date : String
  status : String
  email_id : String
  email_date : String
  source : String
  job_id : String
  notes : String
  last_updated : String
deriving DecidableEq

/-- The row built from a `JobApplication` by `update_spreadsheet`
(job_tracker.py lines 578-582), in worksheet column order. -/
def jobToRow (j : JobApplication) : Row :=
  ⟨j.job_id, j.company, j.position, j.application_date, j.status,
   j.email_id, j.email_date, j.source, j.notes, j.last_updated⟩

/-- The search loop of `find_existing_job` (job_tracker.py lines 647-652):
first row whose Job ID equals `id`, paired with its worksheet row number
(`enumerate(all_data, start=2)`, the header being row 1). -/
def findAux (id : String) : Nat → List Row → Option (Nat × Row)
  | _, [] => none
  | k, r :: rs => if r.jobId = id then some (k, r) else findAux id (k + 1) rs

/-- `JobTracker.find_existing_job` (job_tracker.py lines 631-658).
`lookupOk = false` models the `except` branch (ledger collaborator
unavailable or missing spreadsheet id), which returns `None`. -/
def find_existing_job (ledger : List Row) (lookupOk : Bool) (id : String) : Option (Nat × Row) :=
  if lookupOk then findAux id 2 ledger else none

/-- The status recorded in the ledger for a key, as `find_existing_job`
reports it (`existing_job['data'].get('Status', '')` reads the Status
column of the found row). -/
def lookupStatus (ledger : List Row) (id : String) : Option String :=
  (find_existing_job ledger true id).map fun p => p.2.status

/-- The notes rewrite of `update_existing_job_status`
(job_tracker.py lines 680-682). -/
def appendNote (current_notes new_status new_email_id : String) : String :=
  let new_note := "Status updated to " ++ new_status ++ " via email " ++ new_email_id
  if current_notes = "" then new_note else current_notes ++ "; " ++ new_note

/-- `JobTracker.update_existing_job_status` (job_tracker.py lines 660-690),
with the mutated worksheet made explicit.  The three cell writes of the
source go to worksheet columns D, J and I of the found row
(`worksheet.update('D...', new_status)`, `'J...'` with the timestamp,
`'I...'` with the appended notes): column D is the Application Date field
of the row, column E (Status) is left untouched.  `new_email_date` is
accepted and unused, exactly as in the source.  `writeOk = false` models a
collaborator exception before any cell write, making the function return
`False` with the worksheet unchanged; `now` is the
`datetime.datetime.now().isoformat()` timestamp. -/
def update_existing_job_status (lookupOk writeOk : Bool) (ledger : List Row)
    (job_id new_status new_email_id new_email_date now : String) : Bool × List Row :=
  match find_existing_job ledger lookupOk job_id with
  | none => (false, ledger)
  | some (rowNum, row) =>
    if writeOk then
      (true, ledger.set (rowNum - 2)
        { row with
          applicationDate := new_status,
          lastUpdated := now,
          notes := appendNote row.notes new_status new_email_id })
    else (false, ledger)

/-- `JobTracker.process_job_applications_with_updates`
(job_tracker.py lines 692-721), with the worksheet state threaded
explicitly: returns `(new_jobs, status_updates, final worksheet)`. -/
def process_job_applications_with_updates (lookupOk writeOk : Bool) (now : String) :
    List JobApplication → List Row → List JobApplication × List JobApplication × List Row
  | [], ledger => ([], [], ledger)
  | j :: rest, ledger =>
    match find_existing_job ledger lookupOk j.job_id with
    | some (_, row) =>
      if row.status ≠ j.status then
        let r := update_existing_job_status lookupOk writeOk ledger j.job_id j.status j.email_id j.email_date now
        let t := process_job_applications_with_updates lookupOk writeOk now rest r.2
        if r.1 then (t.1, j :: t.2.1, t.2.2) else (j :: t.1, t.2.1, t.2.2)
      else process_job_applications_with_updates lookupOk writeOk now rest ledger
    | none =>
      let t := process_job_applications_with_updates lookupOk writeOk now rest ledger
      (j :: t.1, t.2.1, t.2.2)

/-- The append path of `JobTracker.update_spreadsheet`
(job_tracker.py lines 576-586): convert each job application to a row and
append the rows below the existing data. -/
def update_spreadsheet_rows (ledger : List Row) (jobs : List JobApplication) : List Row :=
  ledger ++ jobs.map jobToRow

/-- Number of worksheet rows carrying a given Job ID. -/
def countRowsWithId (ledger : List Row) (id : String) : Nat :=
  (ledger.filter fun r => r.jobId = id).length

/-- Disposition NEW: the candidate's key is absent from the ledger. -/
def dispositionNew (ledger : List Row) (j : JobApplication) : Bool :=
  (lookupStatus ledger j.job_id).isNone

/-- Disposition UPDATE: the key is present with a differing status. -/
def dispositionUpdate (ledger : List Row) (j : JobApplication) : Bool :=
  match lookupStatus ledger j.job_id with
  | some s => !(s == j.status)
  | none => false

/-- Disposition NOOP: the key is present with an equal status. -/
def dispositionNoop (ledger : List Row) (j : JobApplication) : Bool :=
  match lookupStatus ledger j.job_id with
  | some s => s == j.status
  | none => false

/-! ### Helper lemmas about the ledger search and mutation -/

lemma findAux_mem_jobId {id : String} :
    ∀ {ledger : List Row} {k n : Nat} {row : Row},
      findAux id k ledger = some (n, row) → row ∈ ledger ∧ row.jobId = id := by
  intro ledger
  induction ledger with
  | nil => intro k n row h; simp [findAux] at h
  | cons r rs ih =>
    intro k n row h
    by_cases hr : r.jobId = id
    · simp [findAux, hr] at h
      exact ⟨by simp [h.2.symm], h.2 ▸ hr⟩
    · simp only [findAux, if_neg hr] at h
      obtain ⟨hm, hid⟩ := ih h
      exact ⟨List.mem_cons_of_mem _ hm, hid⟩

lemma findAux_get {id : String} :
    ∀ {ledger : List Row} {k n : Nat} {row : Row},
      findAux id k ledger = some (n, row) → k ≤ n ∧ ledger.get? (n - k) = some row := by
  intro ledger
  induction ledger with
  | nil => intro k n row h; simp [findAux] at h
  | cons r rs ih =>
    intro k n row h
    by_cases hr : r.jobId = id
    · simp [findAux, hr] at h
      obtain ⟨hk, hrow⟩ := h
      subst hk
      simp [hrow]
    · simp only [findAux, if_neg hr] at h
      obtain ⟨hk, hget⟩ := ih h
      refine ⟨by omega, ?_⟩
      have hnk : n - k = (n - (k + 1)) + 1 := by omega
      rw [hnk]
      simpa using hget

lemma findAux_set_status {id : String} (r' : Row) :
    ∀ (ledger : List Row) (i k : Nat) (r : Row),
      ledger.get? i = some r → r'.jobId = r.jobId → r'.status = r.status →
      Option.map (fun p => p.2.status) (findAux id k (ledger.set i r'))
        = Option.map (fun p => p.2.status) (findAux id k ledger) := by
  intro ledger
  induction ledger with
  | nil => intro i k r h; simp at h
  | cons hd tl ih =>
    intro i k r hget hjob hst
    cases i with
    | zero =>
      simp only [List.get?] at hget
      have hhd : hd = r := by injection hget
      subst hhd
      simp only [List.set]
      by_cases hcond : hd.jobId = id
      · have hcond' : r'.jobId = id := by rw [hjob, hcond]
        simp [findAux, hcond, hcond', hst]
      · have hcond' : ¬ r'.jobId = id := by rw [hjob]; exact hcond
        simp [findAux, hcond, hcond']
    | succ i' =>
      simp only [List.get?] at hget
      simp only [List.set]
      by_cases hcond : hd.jobId = id
      · simp [findAux, hcond]
      · simp only [findAux, if_neg hcond]
        exact ih i' (k + 1) r hget hjob hst

lemma update_eq_of_found {ledger : List Row} {lk : Bool} {job_id : String} {n : Nat} {row : Row}
    (h : find_existing_job ledger lk job_id = some (n, row))
    (st eid ed now : String) :
    update_existing_job_status lk true ledger job_id st eid ed now
      = (true, ledger.set (n - 2)
          { row with
            applicationDate := st,
            lastUpdated := now,
            notes := appendNote row.notes st eid }) := by
  unfold update_existing_job_status
  rw [h]
  rfl

lemma update_eq_of_write_failure {ledger : List Row} {lk : Bool} {job_id : String} {n : Nat} {row : Row}
    (h : find_existing_job ledger lk job_id = some (n, row))
    (st eid ed now : String) :
    update_existing_job_status lk false ledger job_id st eid ed now = (false, ledger) := by
  unfold update_existing_job_status
  rw [h]
  rfl

lemma lookupStatus_update (lk wk : Bool) (ledger : List Row)
    (job_id new_status new_email_id new_email_date now qid : String) :
    lookupStatus
        (update_existing_job_status lk wk ledger job_id new_status new_email_id new_email_date now).2 qid
      = lookupStatus ledger qid := by
  unfold update_existing_job_status
  cases hf : find_existing_job ledger lk job_id with
  | none => rfl
  | some p =>
    obtain ⟨n, row⟩ := p
    cases wk with
    | false => rfl
    | true =>
      cases lk with
      | false => simp [find_existing_job] at hf
      | true =>
        have hfa : findAux job_id 2 ledger = some (n, row) := by
          simpa [find_existing_job] using hf
        obtain ⟨hk, hget⟩ := findAux_get hfa
        simp only [lookupStatus, find_existing_job, if_pos trivial]
        exact findAux_set_status _ ledger (n - 2) 2 row hget rfl rfl

lemma filter_ext {α : Type} (f g : α → Bool) (h : ∀ x, f x = g x) :
    ∀ l : List α, l.filter f = l.filter g := by
  intro l
  induction l with
  | nil => rfl
  | cons a l ih => simp [List.filter, h a, ih]

lemma process_true_true_filters (now : String) :
    ∀ (apps : List JobApplication) (ledger : List Row),
      (process_job_applications_with_updates true true now apps ledger).1
          = apps.filter (fun j => dispositionNew ledger j)
        ∧ (process_job_applications_with_updates true true now apps ledger).2.1
          = apps.filter (fun j => dispositionUpdate ledger j) := by
  intro apps
  induction apps with
  | nil => intro ledger; simp [process_job_applications_with_updates]
  | cons j rest ih =>
    intro ledger
    cases hf : find_existing_job ledger true j.job_id with
    | none =>
      have hnew : dispositionNew ledger j = true := by
        simp [dispositionNew, lookupStatus, hf]
      have hupd : dispositionUpdate ledger j = false := by
        simp [dispositionUpdate, lookupStatus, hf]
      obtain ⟨h1, h2⟩ := ih ledger
      simp [process_job_applications_with_updates, hf, List.filter_cons, hnew, hupd, h1, h2]
    | some p =>
      obtain ⟨n, row⟩ := p
      by_cases hst : row.status = j.status
      · have hnew : dispositionNew ledger j = false := by
          simp [dispositionNew, lookupStatus, hf]
        have hupd : dispositionUpdate ledger j = false := by
          simp [dispositionUpdate, lookupStatus, hf, hst]
        obtain ⟨h1, h2⟩ := ih ledger
        simp [process_job_applications_with_updates, hf, hst, List.filter_cons, hnew, hupd, h1, h2]
      · have hnew : dispositionNew ledger j = false := by
          simp [dispositionNew, lookupStatus, hf]
        have hupd : dispositionUpdate ledger j = true := by
          simp [dispositionUpdate, lookupStatus, hf, hst]
        have hupdq := update_eq_of_found hf j.status j.email_id j.email_date now
        have hls : ∀ qid, lookupStatus
            (ledger.set (n - 2)
              { row with
                applicationDate := j.status,
                lastUpdated := now,
                notes := appendNote row.notes j.status j.email_id }) qid
              = lookupStatus ledger qid := by
          intro qid
          have hq := lookupStatus_update true true ledger j.job_id j.status j.email_id j.email_date now qid
          rwa [hupdq] at hq
        obtain ⟨h1, h2⟩ := ih (ledger.set (n - 2)
          { row with
            applicationDate := j.status,
            lastUpdated := now,
            notes := appendNote row.notes j.status j.email_id })
        have hfn : rest.filter (fun x => dispositionNew (ledger.set (n - 2)
              { row with
                applicationDate := j.status,
                lastUpdated := now,
                notes := appendNote row.notes j.status j.email_id }) x)
            = rest.filter (fun x => dispositionNew ledger x) :=
          filter_ext _ _ (fun x => by simp [dispositionNew, hls]) rest
        have hfu : rest.filter (fun x => dispositionUpdate (ledger.set (n - 2)
              { row with
                applicationDate := j.status,
                lastUpdated := now,
                notes := appendNote row.notes j.status j.email_id }) x)
            = rest.filter (fun x => dispositionUpdate ledger x) :=
          filter_ext _ _ (fun x => by simp [dispositionUpdate, hls]) rest
        simp [process_job_applications_with_updates, hf, hst, hupdq, List.filter_cons,
          hnew, hupd, h1, h2, hfn, hfu]

/-! ### Claim theorems -/

/-- C1: two calls of `generate_job_id` with identical arguments return
identical key strings, and the key is a function of the company, the
position, the differentiating keywords extracted from the subject
(`extract_position_keywords`) and the date-only component of the
application date (`datePart`, together with whether a date was provided at
all): any two subjects with the same extracted keywords and any two
provided dates with the same date-only component yield the same key. -/
theorem generate_job_id_deterministic (company position : String) :
    (∀ subject date : String,
        generate_job_id company position subject date
          = generate_job_id company position subject date)
    ∧ ∀ s1 s2 d1 d2 : String,
        extract_position_keywords s1 = extract_position_keywords s2 →
        datePart d1 = datePart d2 →
        (d1 = "" ↔ d2 = "") →
        generate_job_id company position s1 d1 = generate_job_id company position s2 d2 := by
  refine ⟨fun _ _ => rfl, ?_⟩
  intro s1 s2 d1 d2 hk hd hde
  simp only [generate_job_id]
  rw [hk]
  by_cases h1 : d1 = ""
  · have h2 : d2 = "" := hde.mp h1
    simp [h1, h2]
  · have h2 : ¬ d2 = "" := fun h => h1 (hde.mpr h)
    simp [h1, h2, hd]

/-- Witness for C1 at concrete inputs: two different subjects with the same
extracted keyword and two timestamps on the same day give the same key. -/
theorem generate_job_id_deterministic_witness :
    generate_job_id "Google" "Dev" "Backend role" "2024-01-15T10:00"
      = generate_job_id "Google" "Dev" "role for the backend team" "2024-01-15T23:59" :=
  (generate_job_id_deterministic "Google" "Dev").2
    "Backend role" "role for the backend team" "2024-01-15T10:00" "2024-01-15T23:59"
    (by decide) (by decide) (by decide)

/-- C2: with the ledger collaborator available and every cell write
succeeding, `process_job_applications_with_updates` partitions the batch by
the initial ledger snapshot: the NEW group is exactly the order-preserving
filter of the batch by key-absent, the UPDATE group the filter by
key-present-with-differing-status, and the NOOP disposition holds exactly
when neither of the other two does, so the three groups are disjoint and
cover the batch. -/
theorem process_partitions_batch (now : String) (apps : List JobApplication) (ledger : List Row) :
    (process_job_applications_with_updates true true now apps ledger).1
        = apps.filter (fun j => dispositionNew ledger j)
    ∧ (process_job_applications_with_updates true true now apps ledger).2.1
        = apps.filter (fun j => dispositionUpdate ledger j)
    ∧ (∀ j : JobApplication,
        dispositionNoop ledger j = (!dispositionNew ledger j && !dispositionUpdate ledger j))
    ∧ ∀ j : JobApplication, (dispositionNew ledger j && dispositionUpdate ledger j) = false := by
  obtain ⟨h1, h2⟩ := process_true_true_filters now apps ledger
  refine ⟨h1, h2, ?_, ?_⟩
  · intro j
    cases h : lookupStatus ledger j.job_id <;>
      simp [dispositionNew, dispositionUpdate, dispositionNoop, h]
  · intro j
    cases h : lookupStatus ledger j.job_id <;>
      simp [dispositionNew, dispositionUpdate, h]

/-- C3: evaluating the status-update mutation at a concrete one-row ledger.
The claim says the new status lands in the Status cell (5th column of the
row schema); the code instead writes `worksheet.update('D...', new_status)`
so the new status "Rejected" lands in the Application Date cell (4th
column) while the Status cell keeps "Applied"; Notes and Last Updated are
written as described, the other cells and rows are untouched. -/
theorem update_writes_status_into_application_date_cell :
    update_existing_job_status true true
      [⟨"J1", "Acme", "Dev", "2024-01-01", "Applied", "e0", "d0", "G", "n0", "t0"⟩]
      "J1" "Rejected" "m1" "d1" "T1"
    = (true, [⟨"J1", "Acme", "Dev", "Rejected", "Applied", "e0", "d0", "G",
               "n0; Status updated to Rejected via email m1", "T1"⟩]) := by
  decide

/-- C4: the status classifier returns exactly what the spec's fixed ordered
table Rejected > Interview > Accepted > Withdrawn prescribes (status of the
first entry with a keyword occurring as a substring of the lower-cased
text, `Applied` when none matches); in particular text containing both a
rejected keyword and an interview keyword classifies as Rejected. -/
theorem determine_status_first_match (subject body : String) :
    determine_status subject body = classifySpec (subject ++ " " ++ body)
    ∧ determine_status "Your application was rejected"
        "we scheduled an interview call" = "Rejected" :=
  ⟨rfl, by decide⟩

/-- C5: re-ingesting a message whose resulting record (same key, same
status) is already in the ledger yields NOOP: the candidate is placed in
neither the new-records group nor the update group, the worksheet state is
unchanged (no cell written), and appending the resulting new-records group
appends no row. -/
theorem reingest_same_status_is_noop (wk : Bool) (now : String) (c : JobApplication)
    (ledger : List Row) (h : lookupStatus ledger c.job_id = some c.status) :
    process_job_applications_with_updates true wk now [c] ledger = ([], [], ledger)
    ∧ update_spreadsheet_rows ledger
        (process_job_applications_with_updates true wk now [c] ledger).1 = ledger := by
  cases hf : find_existing_job ledger true c.job_id with
  | none => simp [lookupStatus, hf] at h
  | some p =>
    obtain ⟨n, row⟩ := p
    have hrow : row.status = c.status := by simpa [lookupStatus, hf] using h
    have hproc : process_job_applications_with_updates true wk now [c] ledger = ([], [], ledger) := by
      simp [process_job_applications_with_updates, hf, hrow]
    exact ⟨hproc, by rw [hproc]; simp [update_spreadsheet_rows]⟩

/-- Witness for C5: a candidate whose key and status already sit in the
one-row ledger is a NOOP on re-processing. -/
theorem reingest_same_status_is_noop_witness :
    process_job_applications_with_updates true true "T"
      [⟨"Acme", "Dev", "2024-01-01", "Applied", "e1", "d1", "G", "J1", "", ""⟩]
      [⟨"J1", "Acme", "Dev", "2024-01-01", "Applied", "e0", "d0", "G", "n0", "t0"⟩]
    = ([], [], [⟨"J1", "Acme", "Dev", "2024-01-01", "Applied", "e0", "d0", "G", "n0", "t0"⟩]) :=
  (reingest_same_status_is_noop true "T"
    ⟨"Acme", "Dev", "2024-01-01", "Applied", "e1", "d1", "G", "J1", "", ""⟩
    [⟨"J1", "Acme", "Dev", "2024-01-01", "Applied", "e0", "d0", "G", "n0", "t0"⟩]
    (by decide)).1

/-- C7: a ledger lookup failure is treated as "absent": `find_existing_job`
reports no match, and every candidate of the batch is (re)submitted in the
NEW group — none is dropped, no update is emitted, and the worksheet is
untouched (fail-open). -/
theorem lookup_failure_fail_open (wk : Bool) (now : String) :
    (∀ (ledger : List Row) (id : String), find_existing_job ledger false id = none)
    ∧ ∀ (apps : List JobApplication) (ledger : List Row),
        process_job_applications_with_updates false wk now apps ledger = (apps, [], ledger) := by
  refine ⟨fun _ _ => rfl, ?_⟩
  intro apps
  induction apps with
  | nil => intro ledger; rfl
  | cons j rest ih =>
    intro ledger
    simp [process_job_applications_with_updates, find_existing_job, ih ledger]

/-- C6 counterexample: at previous notes "x", new status "Rejected" and
message id "m1", the Notes cell after the mutation is
"x; Status updated to Rejected via email m1".  The provenance line claimed
by the spec says "via source"; that string occurs nowhere in the result,
so the new notes are not the previous notes with the claimed line
appended. -/
theorem notes_provenance_line_says_email_not_source :
    (update_existing_job_status true true
       [⟨"J1", "Acme", "Dev", "2024-01-01", "Applied", "e0", "d0", "G", "x", "t0"⟩]
       "J1" "Rejected" "m1" "d1" "T1").2
      = [⟨"J1", "Acme", "Dev", "Rejected", "Applied", "e0", "d0", "G",
          "x; Status updated to Rejected via email m1", "T1"⟩]
    ∧ containsSub ("x; Status updated to Rejected via email m1").toList
        ("via source").toList = false :=
  ⟨by decide, by decide⟩

/-- C6 amended: after a successful UPDATE the Notes cell of the matched row
equals the previous notes followed by the separator "; " (omitted when the
previous notes were empty) and the provenance line
"Status updated to " ++ status ++ " via email " ++ sourceId — the line says
"via email", not "via source".  In particular the previous notes value is a
prefix of the new one: it is never overwritten or truncated. -/
theorem update_appends_email_provenance (ledger : List Row) (job_id st eid ed now : String)
    (n : Nat) (row : Row)
    (h : find_existing_job ledger true job_id = some (n, row)) :
    (update_existing_job_status true true ledger job_id st eid ed now).1 = true
    ∧ ∃ row',
        (update_existing_job_status true true ledger job_id st eid ed now).2.get? (n - 2)
          = some row'
        ∧ row'.notes
            = (if row.notes = ""
               then "Status updated to " ++ st ++ " via email " ++ eid
               else row.notes ++ "; " ++ ("Status updated to " ++ st ++ " via email " ++ eid))
        ∧ ∃ t : String, row'.notes = row.notes ++ t := by
  have hq := update_eq_of_found h st eid ed now
  rw [hq]
  have hfa : findAux job_id 2 ledger = some (n, row) := by
    simpa [find_existing_job] using h
  obtain ⟨hk, hget⟩ := findAux_get hfa
  have hlt : n - 2 < ledger.length := (List.get?_eq_some.mp hget).1
  refine ⟨rfl, ⟨_, List.get?_set_eq_of_lt _ hlt, ?_, ?_⟩⟩
  · by_cases hn : row.notes = "" <;> simp [appendNote, hn]
  · by_cases hn : row.notes = ""
    · exact ⟨"Status updated to " ++ st ++ " via email " ++ eid, by simp [appendNote, hn]⟩
    · refine ⟨"; " ++ ("Status updated to " ++ st ++ " via email " ++ eid), ?_⟩
      simp [appendNote, hn, String.append_assoc]

/-- Witness for the amended C6 at a concrete one-row ledger. -/
theorem update_appends_email_provenance_witness :
    (update_existing_job_status true true
       [⟨"J1", "Acme", "Dev", "2024-01-01", "Applied", "e0", "d0", "G", "old note", "t0"⟩]
       "J1" "Interview" "m7" "d7" "T7").1 = true :=
  (update_appends_email_provenance
    [⟨"J1", "Acme", "Dev", "2024-01-01", "Applied", "e0", "d0", "G", "old note", "t0"⟩]
    "J1" "Interview" "m7" "d7" "T7" 2
    ⟨"J1", "Acme", "Dev", "2024-01-01", "Applied", "e0", "d0", "G", "old note", "t0"⟩
    (by decide)).1

/-- C8: company extraction is not total: with an empty sender address and
the subject "Opening AT " — the marker "AT " being the final token, so no
token follows it — `extract_company` hits an uncaught `IndexError`
(modelled as `none`) at `parts[1].split()[0]` instead of returning a
string; a subject with no marker does return the sentinel. -/
theorem extract_company_raises_on_marker_final_subject :
    extract_company "" "Opening AT " = none
    ∧ extract_company "" "Opening" = some "Unknown Company" :=
  ⟨by decide, by decide⟩

/-- C9 counterexample: the claim's denylist wrongly includes aol and its
marker list wrongly includes "FROM ".  On sender "jobs@aol.com" the code
returns "Aol" (aol is not in the code's denylist) where the claimed
extraction returns the sentinel; on subject "OFFER FROM ACME CORP" the code
returns the sentinel (it has no "FROM " marker) where the claimed
extraction returns "Acme". -/
theorem extract_company_denylist_marker_counterexample :
    (extract_company "jobs@aol.com" "" = some "Aol"
      ∧ extractCompanyClaimed "jobs@aol.com" "" = "Unknown Company")
    ∧ extract_company "" "OFFER FROM ACME CORP" = some "Unknown Company"
    ∧ extractCompanyClaimed "" "OFFER FROM ACME CORP" = "Acme" :=
  ⟨⟨by decide, by decide⟩, by decide, by decide⟩

/-- C9 amended: whenever `extract_company` returns normally, its value is
the title-cased domain segment of the sender address when that domain is
not one of the generic providers gmail, yahoo, hotmail, outlook (aol is not
excluded); otherwise the title-cased token immediately following the first
of the markers "AT ", "FOR ", "WITH ", "VIA " (there is no "FROM " marker)
present in the upper-cased subject; otherwise the sentinel
"Unknown Company". -/
theorem extract_company_follows_amended_spec (from_email subject r : String)
    (h : extract_company from_email subject = some r) :
    r = extractCompanySpec from_email subject := by
  have key : ∀ dr : Option String,
      (match dr with
       | some c => some c
       | none =>
         if subject = "" then some "Unknown Company"
         else
           match firstIndicatorToken common_indicators (strUpper subject).toList with
           | none => some "Unknown Company"
           | some none => none
           | some (some tok) => some (pyTitle (String.mk tok))) = some r →
      r = (match dr with
       | some c => c
       | none =>
         if subject = "" then "Unknown Company"
         else
           match firstIndicatorToken common_indicators (strUpper subject).toList with
           | some (some tok) => pyTitle (String.mk tok)
           | _ => "Unknown Company") := by
    intro dr hdr
    cases dr with
    | some c =>
      simp only at hdr
      injection hdr with hc
      exact hc.symm
    | none =>
      by_cases hsub : subject = ""
      · simp only [hsub, if_pos] at hdr ⊢
        injection hdr with hc
        exact hc.symm
      · cases hind : firstIndicatorToken common_indicators (strUpper subject).toList with
        | none =>
          simp only [hsub, if_neg, hind] at hdr ⊢
          injection hdr with hc
          exact hc.symm
        | some o =>
          cases o with
          | none =>
            rw [if_neg hsub, hind] at hdr
            exact Option.noConfusion hdr
          | some tok =>
            simp only [hsub, if_neg, hind] at hdr ⊢
            injection hdr with hc
            exact hc.symm
  exact key
    (if containsSub from_email.toList ['@'] then
      (if generic_domains.contains (domainOf from_email) then none
       else some (pyTitle (domainOf from_email)))
     else none) h

/-- Witness for the amended C9 at a concrete sender address. -/
theorem extract_company_follows_amended_spec_witness :
    "Acme" = extractCompanySpec "jobs@acme.com" "" :=
  extract_company_follows_amended_spec "jobs@acme.com" "" "Acme" (by decide)

/-- C10: when the cell writes of a status update fail for a candidate whose
key is present with a differing status, the candidate is emitted in the
new-records group (not the update group) with the worksheet unchanged, and
the subsequent append of that group creates a second worksheet row bearing
the already-existing key, violating at-most-one-row-per-key. -/
theorem update_write_failure_creates_duplicate_key (now : String) (c : JobApplication)
    (ledger : List Row) (n : Nat) (row : Row)
    (h1 : find_existing_job ledger true c.job_id = some (n, row))
    (h2 : row.status ≠ c.status) :
    (process_job_applications_with_updates true false now [c] ledger).1 = [c]
    ∧ (process_job_applications_with_updates true false now [c] ledger).2.1 = []
    ∧ (process_job_applications_with_updates true false now [c] ledger).2.2 = ledger
    ∧ 2 ≤ countRowsWithId
        (update_spreadsheet_rows ledger
          (process_job_applications_with_updates true false now [c] ledger).1)
        c.job_id := by
  have hupd := update_eq_of_write_failure h1 c.status c.email_id c.email_date now
  have hproc : process_job_applications_with_updates true false now [c] ledger
      = ([c], [], ledger) := by
    simp [process_job_applications_with_updates, h1, h2, hupd]
  have hfa1 : findAux c.job_id 2 ledger = some (n, row) := by
    simpa [find_existing_job] using h1
  have hmem := findAux_mem_jobId hfa1
  have hpos : 0 < countRowsWithId ledger c.job_id := by
    have hin : row ∈ ledger.filter (fun r => r.jobId = c.job_id) :=
      List.mem_filter.mpr ⟨hmem.1, by simp [hmem.2]⟩
    exact List.length_pos_of_mem hin
  have hcount : countRowsWithId (update_spreadsheet_rows ledger [c]) c.job_id
      = countRowsWithId ledger c.job_id + 1 := by
    simp [countRowsWithId, update_spreadsheet_rows, List.filter_append, jobToRow]
  rw [hproc]
  refine ⟨rfl, rfl, rfl, ?_⟩
  show 2 ≤ countRowsWithId (update_spreadsheet_rows ledger [c]) c.job_id
  rw [hcount]
  omega

/-- Witness for C10: one existing "J1" row with status Applied, a failing
update for a "J1" candidate with status Rejected, and the resulting append:
two rows now carry key "J1". -/
theorem update_write_failure_creates_duplicate_key_witness :
    2 ≤ countRowsWithId
        (update_spreadsheet_rows
          [⟨"J1", "Acme", "Dev", "2024-01-01", "Applied", "e0", "d0", "G", "n0", "t0"⟩]
          (process_job_applications_with_updates true false "T"
            [⟨"Acme", "Dev", "2024-01-02", "Rejected", "e1", "d1", "G", "J1", "", ""⟩]
            [⟨"J1", "Acme", "Dev", "2024-01-01", "Applied", "e0", "d0", "G", "n0", "t0"⟩]).1)
        "J1" :=
  (update_write_failure_creates_duplicate_key "T"
    ⟨"Acme", "Dev", "2024-01-02", "Rejected", "e1", "d1", "G", "J1", "", ""⟩
    [⟨"J1", "Acme", "Dev", "2024-01-01", "Applied", "e0", "d0", "G", "n0", "t0"⟩] 2
    ⟨"J1", "Acme", "Dev", "2024-01-01", "Applied", "e0", "d0", "G", "n0", "t0"⟩
    (by decide) (by decide)).2.2.2
